import Mathlib

/-!
Verification of the core of `vohiyo` (a chat client backbone): the
asynchronous resolution cache (`src/resolver/`), the protocol connection
state machine (`src/twitch/`), the stream-status subscription batcher
(`src/runtime/stream_check.rs`) and the metadata HTTP client
(`src/helix.rs`), shallowly embedded in Lean.

Conventions of the embedding:
* hash maps / hash sets become association lists / duplicate-free lists
  kept in insertion order;
* a spawned fetch handle (`Fut<T>`) is identified by a natural number;
* background loops become explicit step functions over an input trace,
  with wall-clock time in milliseconds as a natural number;
* `panic!` / `.expect(..)` sites become an explicit `panicked` outcome.
-/

namespace Vohiyo

/-- Cache entry state (src/resolver/ready.rs): `Ready::Ready(v)` or `Ready::NotReady`. -/
inductive Ready (V : Type) where
  | ready (v : V)
  | notReady
  deriving Repr, DecidableEq

/-- `Ready::as_option` (src/resolver/ready.rs). -/
def Ready.asOption {V : Type} : Ready V → Option V
  | .ready v => some v
  | .notReady => none

/-- `Ready::is_ready` (src/resolver/ready.rs). -/
def Ready.isReady {V : Type} : Ready V → Bool
  | .ready _ => true
  | .notReady => false

/-- `ResolverMap<K, V, T>` (src/resolver/resolver_map.rs): a keyed store of
not-yet-ready / ready values plus the unordered collection of outstanding
fetch handles.  The `hashbrown::HashMap` is modelled as an association list in
insertion order; each outstanding `Fut<T>` is modelled by the number that
identifies the spawned fetch. -/
structure ResolverMap (K V : Type) where
  map : List (K × Ready V)
  pending : List Nat
  deriving Repr, DecidableEq

/-- Association-list lookup (models `HashMap::get` / the raw-entry probe). -/
def lookupEntry {K V : Type} [DecidableEq K] (m : List (K × Ready V)) (k : K) :
    Option (Ready V) :=
  match m with
  | [] => none
  | (k2, e) :: rest => if k2 = k then some e else lookupEntry rest k

namespace ResolverMap

variable {K V : Type} [DecidableEq K]

/-- `ResolverMap::try_get` (src/resolver/resolver_map.rs line 32). -/
def tryGet (rm : ResolverMap K V) (k : K) : Option V :=
  (lookupEntry rm.map k).bind Ready.asOption

/-- `ResolverMap::contains`. -/
def containsKey (rm : ResolverMap K V) (k : K) : Bool :=
  (lookupEntry rm.map k).isSome

/-- `ResolverMap::get_or_update` (src/resolver/resolver_map.rs lines 40-54).
`fut` is the fetch handle the `update` callback would return; the returned
`Bool` records whether the `update` callback was invoked (and hence whether a
fetch was pushed onto `pending`).  Occupied entry: return `as_option`, no
mutation, callback not invoked.  Vacant entry: insert `NotReady`, push the
fetch produced by `update(key)`, return `None`. -/
def getOrUpdate (rm : ResolverMap K V) (k : K) (fut : Nat) :
    Option V × ResolverMap K V × Bool :=
  match lookupEntry rm.map k with
  | some e => (e.asOption, rm, false)
  | none => (none, ⟨rm.map ++ [(k, Ready.notReady)], rm.pending ++ [fut]⟩, true)

/-- `ResolverMap::get_or_else` (src/resolver/resolver_map.rs lines 56-70).
Identical dedup structure, but the vacant branch runs an arbitrary side
effect instead of pushing a fetch; the returned `Bool` records whether the
`or_else` callback was invoked. -/
def getOrElse (rm : ResolverMap K V) (k : K) :
    Option V × ResolverMap K V × Bool :=
  match lookupEntry rm.map k with
  | some e => (e.asOption, rm, false)
  | none => (none, ⟨rm.map ++ [(k, Ready.notReady)], rm.pending⟩, true)

/-- `ResolverMap::add` (src/resolver/resolver_map.rs line 72). -/
def addFut (rm : ResolverMap K V) (fut : Nat) : ResolverMap K V :=
  ⟨rm.map, rm.pending ++ [fut]⟩

end ResolverMap

theorem lookupEntry_append_self {K V : Type} [DecidableEq K]
    (m : List (K × Ready V)) (k : K) (e : Ready V)
    (h : lookupEntry m k = none) :
    lookupEntry (m ++ [(k, e)]) k = some e := by
  induction m with
  | nil => simp [lookupEntry]
  | cons hd tl ih =>
    obtain ⟨k2, e2⟩ := hd
    by_cases hk : k2 = k
    · simp [lookupEntry, hk] at h
    · simp only [lookupEntry, hk, if_neg hk, List.cons_append] at h ⊢
      exact ih h

/-- C1: if `get_or_update` is called for a key whose entry is still `NotReady`
(the first fetch has not resolved), the `update` callback is not invoked and
no fetch handle is added to the pending set; together with the first call on a
fresh key — which spawns exactly one fetch and leaves the entry `NotReady` —
exactly one fetch is spawned for the key across all calls made before the
first resolves. -/
theorem c1_get_or_update_dedup {K V : Type} [DecidableEq K]
    (rm : ResolverMap K V) (k : K) (f1 f2 : Nat)
    (hfresh : lookupEntry rm.map k = none) :
    (rm.getOrUpdate k f1).2.2 = true ∧
    (rm.getOrUpdate k f1).2.1.pending = rm.pending ++ [f1] ∧
    lookupEntry (rm.getOrUpdate k f1).2.1.map k = some Ready.notReady ∧
    (∀ rm2 : ResolverMap K V, lookupEntry rm2.map k = some Ready.notReady →
      rm2.getOrUpdate k f2 = (none, rm2, false)) := by
  refine ⟨?_, ?_, ?_, ?_⟩
  · simp [ResolverMap.getOrUpdate, hfresh]
  · simp [ResolverMap.getOrUpdate, hfresh]
  · simp only [ResolverMap.getOrUpdate, hfresh]
    exact lookupEntry_append_self rm.map k Ready.notReady hfresh
  · intro rm2 h2
    simp [ResolverMap.getOrUpdate, h2, Ready.asOption]

/-- Witness for C1 at a concrete input: a fresh map, key `"alice"`. -/
theorem c1_get_or_update_dedup_witness :
    (((⟨[], []⟩ : ResolverMap String Nat).getOrUpdate "alice" 0).2.2 = true ∧
    ((⟨[], []⟩ : ResolverMap String Nat).getOrUpdate "alice" 0).2.1.pending = [] ++ [0] ∧
    lookupEntry ((⟨[], []⟩ : ResolverMap String Nat).getOrUpdate "alice" 0).2.1.map "alice" =
      some Ready.notReady ∧
    (∀ rm2 : ResolverMap String Nat,
      lookupEntry rm2.map "alice" = some Ready.notReady →
      rm2.getOrUpdate "alice" 1 = (none, rm2, false))) :=
  c1_get_or_update_dedup (⟨[], []⟩ : ResolverMap String Nat) "alice" 0 1 rfl

/-! ## Metadata HTTP client (src/helix.rs) -/

namespace Helix

/-- Status of one HTTP response as `Client::get_response` classifies it:
401 Unauthorized, or anything else (carrying an abstracted payload). -/
inductive HResp where
  | unauthorized
  | ok (v : Nat)
  deriving Repr, DecidableEq

/-- `Client::fetch_bearer_token` (src/helix.rs lines 258-275): return the
cached token when present, otherwise obtain a fresh one via the
client-credential exchange and cache it.  Fresh tokens are numbered by a
counter.  Result: (token used, new cache, new counter, fetched fresh?). -/
def fetchBearerToken (cached : Option Nat) (counter : Nat) :
    Nat × Option Nat × Nat × Bool :=
  match cached with
  | some t => (t, some t, counter, false)
  | none => (counter, some counter, counter + 1, true)

/-- The `loop` in `Client::get_response` (src/helix.rs lines 230-246): each
iteration fetches the bearer token and executes the request; a non-401
response breaks the loop; a 401 takes (clears) the cached token and the loop
repeats.  `resps` scripts the status of each successive attempt.  The result
is the final payload together with the number of requests executed, or `none`
when the script is exhausted with the loop still running (every scripted
response was a 401). -/
def getResponseLoop (cached : Option Nat) (counter : Nat) :
    List HResp → Option (Nat × Nat)
  | [] => none
  | r :: rest =>
    let fb := fetchBearerToken cached counter
    match r with
    | .ok v => some (v, 1)
    | .unauthorized =>
      (getResponseLoop none fb.2.2.1 rest).map (fun p => (p.1, p.2 + 1))

end Helix

/-- C7 counterexample: with a response script of two consecutive 401s then a
success, `get_response` executes three requests — it retried twice after the
first 401, not "exactly once per request". -/
theorem c7_counterexample_two_retries :
    Helix.getResponseLoop none 0
      [Helix.HResp.unauthorized, Helix.HResp.unauthorized, Helix.HResp.ok 7] =
      some (7, 3) := by
  decide

/-- C7 amended: on a 401 the client clears the cached bearer token, obtains a
fresh one, and retries; this repeats with no retry limit until a non-401
response arrives.  With `n` consecutive 401s followed by a success the client
executes exactly `n + 1` requests, and after any 401 the next attempt fetches
a fresh token (the cache was cleared). -/
theorem c7_unbounded_retry_refresh
    (cached : Option Nat) (counter n v : Nat) (rest : List Helix.HResp) :
    Helix.getResponseLoop cached counter
      (List.replicate n Helix.HResp.unauthorized ++ Helix.HResp.ok v :: rest) =
      some (v, n + 1) ∧
    (Helix.fetchBearerToken none counter).2.2.2 = true := by
  constructor
  · induction n generalizing cached counter with
    | zero => simp [Helix.getResponseLoop]
    | succ m ih =>
      simp only [List.replicate_succ, List.cons_append, Helix.getResponseLoop]
      rw [show (List.replicate m Helix.HResp.unauthorized).append
            (Helix.HResp.ok v :: rest) =
          List.replicate m Helix.HResp.unauthorized ++ Helix.HResp.ok v :: rest from rfl, ih]
      rfl
  · rfl

/-! ## Protocol client (src/twitch/) -/

namespace Twitch

/-- Outcome of code containing `.expect(..)` / `panic!` sites. -/
inductive PanicOr (α : Type) where
  | panicked
  | ok (a : α)
  deriving Repr, DecidableEq

/-- Generic association-list lookup (models `HashMap::get`). -/
def alistLookup {α : Type} : List (String × α) → String → Option α
  | [], _ => none
  | (k2, v) :: rest, k => if k2 = k then some v else alistLookup rest k

/-- Association-list upsert (models `HashMap` entry insertion/overwrite). -/
def alistUpsert {α : Type} : List (String × α) → String → α → List (String × α)
  | [], k, v => [(k, v)]
  | (k2, v2) :: rest, k, v =>
    if k2 = k then (k2, v) :: rest else (k2, v2) :: alistUpsert rest k v

/-- `channel.strip_prefix('#').unwrap_or(channel)` (src/twitch/identity.rs). -/
def stripHash (c : String) : String :=
  if c.startsWith "#" then c.drop 1 else c

/-- `Identity` (src/twitch/identity.rs): the authenticated session.
`badgeMap` is channel → (badge-set-id → badge-version). -/
structure Identity where
  name : String
  displayName : Option String
  userId : String
  emoteSets : List String
  badgeMap : List (String × List (String × String))
  deriving Repr, DecidableEq

/-- `Identity::append_badges` (src/twitch/identity.rs): strip a leading `#`
from the channel, then upsert each badge pair into that channel's map. -/
def Identity.appendBadges (i : Identity) (channel : String)
    (badges : List (String × String)) : Identity :=
  let ch := stripHash channel
  let inner := (alistLookup i.badgeMap ch).getD []
  let inner2 := badges.foldl (fun m p => alistUpsert m p.1 p.2) inner
  { i with badgeMap := alistUpsert i.badgeMap ch inner2 }

/-- `Event` (src/twitch/events.rs), the channel from the connection loop to
`Client::poll`.  Durations are milliseconds.  `invalidCredentials` appears in
the `Client::poll` match (src/twitch/client.rs line 117) even though the
`Event` declaration in events.rs has no such variant and the connection loop
never produces it; it is included so that its absence from every emitted
event trace is a provable statement rather than a typing accident. -/
inductive Event where
  | connecting
  | connected (identity : Identity)
  | privmsg (channel text : String)
  | join (channel : String)
  | channelId (channel roomId : String)
  | userState (channel : String) (badges : List (String × String))
      (msgId : Option String)
  | reconnecting (duration : Nat)
  | invalidCredentials
  deriving Repr, DecidableEq

/-- `Status` (src/twitch/mod.rs lines 23-33); the `when : Instant` field of
`Reconnecting` is wall-clock time and is not modelled. -/
inductive Status where
  | notConnected
  | connecting
  | connected
  | reconnecting (after : Nat)
  deriving Repr, DecidableEq

/-- The pending local-echo slot: the retained `(PrivmsgBuilder, TagsBuilder)`
pair, reduced to the channel and body it was built from. -/
structure PendingEcho where
  channel : String
  text : String
  deriving Repr, DecidableEq

/-- `Message` (src/twitch/mod.rs lines 42-48) as produced by `Client::poll`;
`invalidCredentials` appears in client.rs's match though the mod.rs
declaration lacks it (same inconsistency as `Event.invalidCredentials`). -/
inductive CMessage where
  | join (channel : String)
  | privmsg (channel text : String)
  | finished (channel text msgId : String)
  | invalidCredentials
  deriving Repr, DecidableEq

/-- Result of one `Client::poll` step. -/
structure PollResult where
  status : Status
  identity : Option Identity
  last : Option PendingEcho
  msg : Option CMessage
  deriving Repr, DecidableEq

/-- `Client::poll` (src/twitch/client.rs lines 60-121) processing one event:
`Connecting` / `Connected` / `Reconnecting` update `self.status`; `UserState`
merges badges into the identity (panicking if none) and, when a pending local
echo exists, takes it, attaches the frame's msg-id (panicking if absent) and
returns it as `Finished`; `ChannelId` is dropped; `Join` / `Privmsg` /
`InvalidCredentials` pass through as messages. -/
def clientPoll (ev : Event) (status : Status) (identity : Option Identity)
    (last : Option PendingEcho) : PanicOr PollResult :=
  match ev with
  | .connecting => .ok ⟨.connecting, identity, last, none⟩
  | .connected newId => .ok ⟨.connected, some newId, last, none⟩
  | .reconnecting d => .ok ⟨.reconnecting d, identity, last, none⟩
  | .userState channel badges msgId =>
    match identity with
    | none => .panicked
    | some id =>
      let id2 := id.appendBadges channel badges
      match last with
      | some pm =>
        match msgId with
        | none => .panicked
        | some mid =>
          .ok ⟨status, some id2, none, some (.finished pm.channel pm.text mid)⟩
      | none => .ok ⟨status, some id2, none, none⟩
  | .channelId _ _ => .ok ⟨status, identity, last, none⟩
  | .invalidCredentials => .ok ⟨status, identity, last, some .invalidCredentials⟩
  | .join c => .ok ⟨status, identity, last, some (.join c)⟩
  | .privmsg c t => .ok ⟨status, identity, last, some (.privmsg c t)⟩

/-- `app.last.replace((msg, tags))` (src/views/main_view.rs line 202): sending
a chat message overwrites the single pending local-echo slot. -/
def sendLocal (last : Option PendingEcho) (p : PendingEcho) : Option PendingEcho :=
  let _ := last
  some p

/-- `Client` as seen by `connect` (src/twitch/client.rs): the one-shot start
signal sender (`Option<oneshot::Sender<Signal>>`) plus the record of signals
delivered to the background loop. -/
structure ClientHandle where
  signal : Option Unit
  sentSignals : List Unit
  deriving Repr, DecidableEq

/-- `Client::create` (src/twitch/client.rs lines 19-40): the sender is armed,
nothing sent yet. -/
def ClientHandle.create : ClientHandle := ⟨some (), []⟩

/-- `Client::connect` (src/twitch/client.rs lines 46-50):
`if let Some(signal) = self.signal.take() { let _ = signal.send(Signal::Start); }`. -/
def ClientHandle.connect (c : ClientHandle) : ClientHandle :=
  match c.signal with
  | some _ => ⟨none, c.sentSignals ++ [()]⟩
  | none => c

end Twitch

/-- C8: at most one pending local echo is tracked — a new send replaces the
slot; when a per-channel user-state frame arrives while a pending echo
exists, `Client::poll` attaches the frame's message-id, re-emits the message
as `Finished`, and empties the slot; a user-state frame with the slot empty
re-emits nothing (so each echo is finished exactly once). -/
theorem c8_local_echo_single_slot (last : Option Twitch.PendingEcho)
    (p pm : Twitch.PendingEcho) (st : Twitch.Status) (id : Twitch.Identity)
    (ch mid : String) (badges : List (String × String))
    (anyId : Option String) :
    Twitch.sendLocal last p = some p ∧
    Twitch.clientPoll (.userState ch badges (some mid)) st (some id) (some pm) =
      .ok ⟨st, some (id.appendBadges ch badges), none,
        some (.finished pm.channel pm.text mid)⟩ ∧
    Twitch.clientPoll (.userState ch badges anyId) st (some id) none =
      .ok ⟨st, some (id.appendBadges ch badges), none, none⟩ :=
  ⟨rfl, rfl, rfl⟩

/-- C9: `Client::connect` is one-shot — the first call consumes the start
signal sender and delivers exactly one start signal; any subsequent call
finds the sender gone and changes nothing. -/
theorem c9_connect_one_shot (c : Twitch.ClientHandle) :
    Twitch.ClientHandle.create.connect =
      ⟨none, [()]⟩ ∧
    c.connect.signal = none ∧
    c.connect.connect = c.connect := by
  refine ⟨rfl, ?_, ?_⟩ <;>
    cases h : c.signal <;>
      simp [Twitch.ClientHandle.connect, h]

/-! ## Connection loop (`run`, src/twitch/mod.rs) -/

namespace Twitch

/-- `WriteKind` (src/twitch/writer.rs). -/
inductive WriteKind where
  | join (channel : String)
  | part (channel : String)
  | privmsg (target data : String)
  deriving Repr, DecidableEq

/-- Parsed inbound frames, as the dispatch in `run` distinguishes them
(src/twitch/mod.rs lines 208-274); everything else is `other` (the `_ => {}`
arm). -/
inductive Frame where
  | privmsg (channel text : String)
  | ready (name : String)
  | joinAck (user channel : String)
  | roomState (channel roomId : String)
  | userState (channel : String) (badges : List (String × String))
      (msgId : Option String)
  | globalUserState (displayName : Option String) (userId : Option String)
      (emoteSets : List String) (badges : List (String × String))
  | other
  deriving Repr, DecidableEq

/-- One occurrence observed by the connected (`'inner`) loop of `run`
(src/twitch/mod.rs lines 123-285). -/
inductive ConnEvent where
  | writeCmd (w : WriteKind)
  | frame (f : Frame)
  | parseError
  | streamClosed
  | timedOut
  | quiet
  deriving Repr, DecidableEq

/-- Observable outputs of the connection loop: events sent to the application
(`read.send(..)`) and protocol commands written to the socket. -/
inductive Output where
  | ev (e : Event)
  | wroteRegister
  | wroteJoin (channel : String)
  | wrotePart (channel : String)
  | wrotePrivmsg (target data : String)
  | wrotePing
  deriving Repr, DecidableEq

/-- Insertion into the `HashSet<String>` of active channels, keeping
insertion order. -/
def insertS (A : List String) (c : String) : List String :=
  if c ∈ A then A else A ++ [c]

/-- Removal from the active-channel set. -/
def eraseS (A : List String) (c : String) : List String :=
  A.erase c

/-- The state `run` carries across inner-loop iterations: the active-channel
set (`active_channels`, declared outside `'outer`, so it survives reconnects)
and `our_name` (declared inside `'outer`, so it is reset per connection). -/
structure RunState where
  activeChannels : List String
  ourName : Option String
  deriving Repr, DecidableEq

/-- How an inner-loop step leaves the loop. -/
inductive Cont where
  | stay
  | reconnect
  | panicked
  deriving Repr, DecidableEq

/-- Result of one inner-loop iteration. -/
structure StepOut where
  outs : List Output
  state : RunState
  cont : Cont
  deriving Repr, DecidableEq

/-- `RECONNECT` (src/twitch/mod.rs line 63), in milliseconds. -/
def RECONNECT_MS : Nat := 5000

/-- One iteration of the connected `'inner` loop (src/twitch/mod.rs lines
123-285).  Write commands update the active-channel set and are written out;
inbound frames are dispatched exactly as the `match msg.as_enum()` does; a
parse failure, dead socket or keepalive timeout sends `Reconnecting` and
leaves for the reconnect path (the `reconnect!` macro); a quiet period sends
a ping.  The `.expect(..)` sites in the `GlobalUserState` arm become
`panicked`. -/
def innerStep (s : RunState) : ConnEvent → StepOut
  | .writeCmd (.join c) =>
    ⟨[.wroteJoin c], { s with activeChannels := insertS s.activeChannels c }, .stay⟩
  | .writeCmd (.part c) =>
    ⟨[.wrotePart c], { s with activeChannels := eraseS s.activeChannels c }, .stay⟩
  | .writeCmd (.privmsg t d) => ⟨[.wrotePrivmsg t d], s, .stay⟩
  | .frame (.privmsg c txt) => ⟨[.ev (.privmsg c txt)], s, .stay⟩
  | .frame (.ready n) => ⟨[], { s with ourName := some n }, .stay⟩
  | .frame (.joinAck u c) =>
    if s.ourName = some u then ⟨[.ev (.join c)], s, .stay⟩ else ⟨[], s, .stay⟩
  | .frame (.roomState c rid) => ⟨[.ev (.channelId c rid)], s, .stay⟩
  | .frame (.userState c badges mid) => ⟨[.ev (.userState c badges mid)], s, .stay⟩
  | .frame (.globalUserState dn uid es badges) =>
    match s.ourName, uid with
    | none, _ => ⟨[], s, .panicked⟩
    | some _, none => ⟨[], s, .panicked⟩
    | some n, some uid =>
      ⟨.ev (.connected ⟨n, dn, uid, es, [(n, badges)]⟩) ::
        s.activeChannels.map Output.wroteJoin, s, .stay⟩
  | .frame .other => ⟨[], s, .stay⟩
  | .parseError => ⟨[.ev (.reconnecting RECONNECT_MS)], s, .reconnect⟩
  | .streamClosed => ⟨[.ev (.reconnecting RECONNECT_MS)], s, .reconnect⟩
  | .timedOut => ⟨[.ev (.reconnecting RECONNECT_MS)], s, .reconnect⟩
  | .quiet => ⟨[.wrotePing], s, .stay⟩

/-- Result of running one connected session. -/
structure SessRes where
  outs : List Output
  state : RunState
  cont : Cont
  deriving Repr, DecidableEq

/-- Run the `'inner` loop over a list of observed occurrences, stopping when
a step leaves the loop. -/
def runSession (s : RunState) : List ConnEvent → SessRes
  | [] => ⟨[], s, .stay⟩
  | e :: rest =>
    let r := innerStep s e
    match r.cont with
    | .stay =>
      let rr := runSession r.state rest
      ⟨r.outs ++ rr.outs, rr.state, rr.cont⟩
    | c => ⟨r.outs, r.state, c⟩

/-- The disconnected drain at the top of `'outer` (src/twitch/mod.rs lines
86-92): `while let Ok(msg) = write.try_recv()` applies Join/Part to the
active-channel set; a Privmsg hits the `_ => continue 'outer` arm — the
message was already consumed by `try_recv`, and the restarted iteration
re-enters this same drain on the rest of the queue, so the net effect is that
the Privmsg is discarded. -/
def drainWrites (A : List String) : List WriteKind → List String
  | [] => A
  | .join c :: ws => drainWrites (insertS A c) ws
  | .part c :: ws => drainWrites (eraseS A c) ws
  | .privmsg _ _ :: ws => drainWrites A ws

/-- One `'outer` iteration of `run`: the write queue as drained while
disconnected, whether TCP connect plus the registration write succeeded, and
what the connected inner loop then observes. -/
structure OuterIter where
  preWrites : List WriteKind
  connectOk : Bool
  session : List ConnEvent
  deriving Repr, DecidableEq

/-- The `'outer` loop of `run` (src/twitch/mod.rs lines 73-287): drain the
write queue while disconnected, emit `Connecting`, connect and register (on
failure emit `Reconnecting` and retry), then run the inner loop;
`our_name` is reset for each connection.  A session that ends the trace while
still connected, or that panicked, stops the run. -/
def runOuter (s : RunState) : List OuterIter → List Output × RunState
  | [] => ([], s)
  | it :: rest =>
    let s1 : RunState :=
      { s with activeChannels := drainWrites s.activeChannels it.preWrites }
    if it.connectOk then
      let r := runSession { s1 with ourName := none } it.session
      match r.cont with
      | .reconnect =>
        let o2 := runOuter r.state rest
        (Output.ev .connecting :: Output.wroteRegister :: (r.outs ++ o2.1), o2.2)
      | _ => (Output.ev .connecting :: Output.wroteRegister :: r.outs, r.state)
    else
      let o2 := runOuter s1 rest
      (Output.ev .connecting :: Output.ev (.reconnecting RECONNECT_MS) :: o2.1, o2.2)

/-- Translation of an accepted write command to the bytes written
(src/twitch/mod.rs lines 144-173). -/
def writeOut : WriteKind → Output
  | .join c => .wroteJoin c
  | .part c => .wrotePart c
  | .privmsg t d => .wrotePrivmsg t d

theorem runSession_append (s : RunState) (xs ys : List ConnEvent)
    (h : (runSession s xs).cont = .stay) :
    runSession s (xs ++ ys) =
      ⟨(runSession s xs).outs ++ (runSession (runSession s xs).state ys).outs,
       (runSession (runSession s xs).state ys).state,
       (runSession (runSession s xs).state ys).cont⟩ := by
  induction xs generalizing s with
  | nil => simp [runSession]
  | cons e xs ih =>
    rcases hstep : innerStep s e with ⟨outs, s2, c⟩
    cases c with
    | stay =>
      simp only [runSession, hstep, List.cons_append] at h ⊢
      simp only [List.append_eq]
      rw [ih _ h]
      simp
    | reconnect => simp [runSession, hstep] at h
    | panicked => simp [runSession, hstep] at h

/-- Classification of inner-loop outputs: a chat-message event only comes
from a chat-message frame, a written Privmsg only from a Privmsg write
command, and no step ever emits `InvalidCredentials`. -/
theorem innerStep_out_classify (s : RunState) (e : ConnEvent) (o : Output)
    (ho : o ∈ (innerStep s e).outs) :
    (∀ c t, o = .ev (.privmsg c t) → e = .frame (.privmsg c t)) ∧
    (∀ t d, o = .wrotePrivmsg t d → e = .writeCmd (.privmsg t d)) ∧
    o ≠ .ev .invalidCredentials := by
  cases e with
  | writeCmd w => cases w <;> simp_all [innerStep]
  | frame f =>
    cases f with
    | globalUserState dn uid es badges =>
      rcases hn : s.ourName with _ | n <;> rcases uid with _ | u
      · simp_all [innerStep]
      · simp_all [innerStep]
      · simp_all [innerStep]
      · simp only [innerStep, hn, List.mem_cons, List.mem_map] at ho
        rcases ho with ho | ⟨a, _, hao⟩
        · subst ho; simp
        · subst hao; simp
    | joinAck u c =>
      by_cases hu : s.ourName = some u <;> simp_all [innerStep]
    | _ => simp_all [innerStep]
  | parseError => simp_all [innerStep]
  | streamClosed => simp_all [innerStep]
  | timedOut => simp_all [innerStep]
  | quiet => simp_all [innerStep]

theorem runSession_no_privmsg_ev (s : RunState) (es : List ConnEvent)
    (c t : String)
    (h : ConnEvent.frame (Frame.privmsg c t) ∉ es) :
    Output.ev (Event.privmsg c t) ∉ (runSession s es).outs := by
  induction es generalizing s with
  | nil => simp [runSession]
  | cons e rest ih =>
    rcases hstep : innerStep s e with ⟨outs, s2, cc⟩
    have hne : e ≠ ConnEvent.frame (Frame.privmsg c t) := fun hh => h (by simp [hh])
    have hrest : ConnEvent.frame (Frame.privmsg c t) ∉ rest := fun hh => h (by simp [hh])
    have hhead : Output.ev (Event.privmsg c t) ∉ outs := by
      intro hmem
      have := (innerStep_out_classify s e _ (by rw [hstep]; exact hmem)).1 c t rfl
      exact hne this
    cases cc with
    | stay =>
      simp only [runSession, hstep, List.mem_append]
      rintro (hh | hh)
      · exact hhead hh
      · exact ih s2 hrest hh
    | reconnect => simpa [runSession, hstep] using hhead
    | panicked => simpa [runSession, hstep] using hhead

theorem runSession_wrotePrivmsg_src (s : RunState) (es : List ConnEvent)
    (t d : String)
    (h : Output.wrotePrivmsg t d ∈ (runSession s es).outs) :
    ConnEvent.writeCmd (WriteKind.privmsg t d) ∈ es := by
  induction es generalizing s with
  | nil => simp [runSession] at h
  | cons e rest ih =>
    rcases hstep : innerStep s e with ⟨outs, s2, cc⟩
    have hhead : Output.wrotePrivmsg t d ∈ outs →
        e = ConnEvent.writeCmd (WriteKind.privmsg t d) := fun hmem =>
      (innerStep_out_classify s e _ (by rw [hstep]; exact hmem)).2.1 t d rfl
    cases cc with
    | stay =>
      simp only [runSession, hstep, List.mem_append] at h
      rcases h with h | h
      · simp [hhead h]
      · simp [ih s2 h]
    | reconnect =>
      simp only [runSession, hstep] at h
      simp [hhead h]
    | panicked =>
      simp only [runSession, hstep] at h
      simp [hhead h]

theorem runSession_no_invalid (s : RunState) (es : List ConnEvent) :
    Output.ev Event.invalidCredentials ∉ (runSession s es).outs := by
  induction es generalizing s with
  | nil => simp [runSession]
  | cons e rest ih =>
    rcases hstep : innerStep s e with ⟨outs, s2, cc⟩
    have hhead : Output.ev Event.invalidCredentials ∉ outs := fun hmem =>
      (innerStep_out_classify s e _ (by rw [hstep]; exact hmem)).2.2 rfl
    cases cc with
    | stay =>
      simp only [runSession, hstep, List.mem_append]
      rintro (hh | hh)
      · exact hhead hh
      · exact ih s2 hh
    | reconnect => simpa [runSession, hstep] using hhead
    | panicked => simpa [runSession, hstep] using hhead

theorem runOuter_no_invalid (s : RunState) (its : List OuterIter) :
    Output.ev Event.invalidCredentials ∉ (runOuter s its).1 := by
  induction its generalizing s with
  | nil => simp [runOuter]
  | cons it rest ih =>
    by_cases hok : it.connectOk
    · rcases hsess : runSession
        { activeChannels := drainWrites s.activeChannels it.preWrites,
          ourName := none } it.session with ⟨outs, s2, cc⟩
      have hsessno : Output.ev Event.invalidCredentials ∉ outs := by
        have := runSession_no_invalid
          { activeChannels := drainWrites s.activeChannels it.preWrites,
            ourName := none } it.session
        rw [hsess] at this
        exact this
      cases cc with
      | reconnect =>
        simp only [runOuter, hok, if_true, hsess]
        simp [List.mem_cons, List.mem_append, hsessno, ih s2]
      | stay =>
        simp only [runOuter, hok, if_true, hsess]
        simp [List.mem_cons, hsessno]
      | panicked =>
        simp only [runOuter, hok, if_true, hsess]
        simp [List.mem_cons, hsessno]
    · simp only [runOuter, hok, if_false]
      simp [List.mem_cons, ih]

theorem runOuter_wrotePrivmsg_src (s : RunState) (its : List OuterIter)
    (t d : String)
    (h : Output.wrotePrivmsg t d ∈ (runOuter s its).1) :
    ∃ it ∈ its, ConnEvent.writeCmd (WriteKind.privmsg t d) ∈ it.session := by
  induction its generalizing s with
  | nil => simp [runOuter] at h
  | cons it rest ih =>
    by_cases hok : it.connectOk
    · rcases hsess : runSession
        { activeChannels := drainWrites s.activeChannels it.preWrites,
          ourName := none } it.session with ⟨outs, s2, cc⟩
      have hsessrc : Output.wrotePrivmsg t d ∈ outs →
          ConnEvent.writeCmd (WriteKind.privmsg t d) ∈ it.session := by
        intro hmem
        have := runSession_wrotePrivmsg_src
          { activeChannels := drainWrites s.activeChannels it.preWrites,
            ourName := none } it.session t d
        rw [hsess] at this
        exact this hmem
      cases cc with
      | reconnect =>
        simp only [runOuter, hok, if_true, hsess, List.mem_cons, List.mem_append,
          reduceCtorEq, false_or] at h
        rcases h with hh | hh
        · exact ⟨it, by simp, hsessrc hh⟩
        · obtain ⟨it2, hmem, hsess2⟩ := ih s2 hh
          exact ⟨it2, by simp [hmem], hsess2⟩
      | stay =>
        simp only [runOuter, hok, if_true, hsess, List.mem_cons,
          reduceCtorEq, false_or] at h
        exact ⟨it, by simp, hsessrc h⟩
      | panicked =>
        simp only [runOuter, hok, if_true, hsess, List.mem_cons,
          reduceCtorEq, false_or] at h
        exact ⟨it, by simp, hsessrc h⟩
    · simp only [runOuter, hok, if_false, List.mem_cons,
        reduceCtorEq, false_or] at h
      obtain ⟨it2, hmem, hsess2⟩ := ih _ h
      exact ⟨it2, by simp [hmem], hsess2⟩

theorem runSession_pure_writes (s : RunState) (ws : List WriteKind) :
    (runSession s (ws.map ConnEvent.writeCmd)).outs = ws.map writeOut ∧
    (runSession s (ws.map ConnEvent.writeCmd)).cont = Cont.stay := by
  induction ws generalizing s with
  | nil => simp [runSession]
  | cons w ws ih =>
    cases w with
    | join c =>
      have h2 := ih { activeChannels := insertS s.activeChannels c, ourName := s.ourName }
      simp [runSession, innerStep, writeOut, h2.1, h2.2]
    | part c =>
      have h2 := ih { activeChannels := eraseS s.activeChannels c, ourName := s.ourName }
      simp [runSession, innerStep, writeOut, h2.1, h2.2]
    | privmsg t d =>
      have h2 := ih s
      simp [runSession, innerStep, writeOut, h2.1, h2.2]

end Twitch

/-- C2: a connection drop (parse failure, dead socket, keepalive timeout)
leaves the Active Channel Set unchanged and only emits `Reconnecting`; and
when the next `GLOBALUSERSTATE` frame is processed (with the session name
known and a user-id attached), the loop's output decomposes as: everything
before registration (which contains no chat-message event when no chat frame
preceded registration), then `Connected{identity}` immediately followed by a
written Join for every channel currently in the Active Channel Set, then the
outputs of the rest of the session — so every Join is written before any
chat message that follows registration is delivered. -/
theorem c2_drop_keeps_channels_and_rejoin_precedes_chat :
    (∀ (s : Twitch.RunState) (e : Twitch.ConnEvent),
      e = Twitch.ConnEvent.parseError ∨ e = Twitch.ConnEvent.streamClosed ∨
        e = Twitch.ConnEvent.timedOut →
      (Twitch.innerStep s e).state.activeChannels = s.activeChannels ∧
      (Twitch.innerStep s e).outs =
        [Twitch.Output.ev (Twitch.Event.reconnecting Twitch.RECONNECT_MS)]) ∧
    (∀ (s : Twitch.RunState) (pre post : List Twitch.ConnEvent)
      (dn : Option String) (uid n : String) (es : List String)
      (badges : List (String × String)),
      (Twitch.runSession s pre).cont = Twitch.Cont.stay →
      (Twitch.runSession s pre).state.ourName = some n →
      (∀ c t, Twitch.ConnEvent.frame (Twitch.Frame.privmsg c t) ∉ pre) →
      (Twitch.runSession s
          (pre ++ Twitch.ConnEvent.frame
            (Twitch.Frame.globalUserState dn (some uid) es badges) :: post) =
        ⟨(Twitch.runSession s pre).outs ++
          (Twitch.Output.ev
            (Twitch.Event.connected ⟨n, dn, uid, es, [(n, badges)]⟩) ::
            (Twitch.runSession s pre).state.activeChannels.map
              Twitch.Output.wroteJoin) ++
          (Twitch.runSession (Twitch.runSession s pre).state post).outs,
         (Twitch.runSession (Twitch.runSession s pre).state post).state,
         (Twitch.runSession (Twitch.runSession s pre).state post).cont⟩ ∧
        (∀ c ∈ (Twitch.runSession s pre).state.activeChannels,
          Twitch.Output.wroteJoin c ∈
            Twitch.Output.ev
              (Twitch.Event.connected ⟨n, dn, uid, es, [(n, badges)]⟩) ::
              (Twitch.runSession s pre).state.activeChannels.map
                Twitch.Output.wroteJoin) ∧
        (∀ c t, Twitch.Output.ev (Twitch.Event.privmsg c t) ∉
          (Twitch.runSession s pre).outs))) := by
  constructor
  · rintro s e (rfl | rfl | rfl) <;> simp [Twitch.innerStep]
  · intro s pre post dn uid n es badges hstay hname hnopm
    refine ⟨?_, ?_, ?_⟩
    · rw [Twitch.runSession_append s pre _ hstay]
      simp only [Twitch.runSession, Twitch.innerStep, hname]
      simp
    · intro c hc
      exact List.mem_cons_of_mem _ (List.mem_map_of_mem _ hc)
    · intro c t
      exact Twitch.runSession_no_privmsg_ev s pre c t (hnopm c t)

/-- Witness for C2: a one-channel set survives a dead socket, and a concrete
session (ready, registration, then a chat message) emits `Connected`, the
Join replay, and only then the chat message. -/
theorem c2_drop_keeps_channels_and_rejoin_precedes_chat_witness :
    ((Twitch.innerStep ⟨["c1"], none⟩ Twitch.ConnEvent.streamClosed).state.activeChannels =
        ["c1"] ∧
      (Twitch.innerStep ⟨["c1"], none⟩ Twitch.ConnEvent.streamClosed).outs =
        [Twitch.Output.ev (Twitch.Event.reconnecting Twitch.RECONNECT_MS)]) ∧
    Twitch.runSession ⟨["c1"], none⟩
        ([Twitch.ConnEvent.frame (Twitch.Frame.ready "me")] ++
          Twitch.ConnEvent.frame
            (Twitch.Frame.globalUserState none (some "7") [] []) ::
            [Twitch.ConnEvent.frame (Twitch.Frame.privmsg "c1" "hi")]) =
      ⟨[Twitch.Output.ev
          (Twitch.Event.connected ⟨"me", none, "7", [], [("me", [])]⟩),
        Twitch.Output.wroteJoin "c1",
        Twitch.Output.ev (Twitch.Event.privmsg "c1" "hi")],
       ⟨["c1"], some "me"⟩, Twitch.Cont.stay⟩ := by
  have h := c2_drop_keeps_channels_and_rejoin_precedes_chat
  refine ⟨h.1 ⟨["c1"], none⟩ Twitch.ConnEvent.streamClosed (Or.inr (Or.inl rfl)), ?_⟩
  have h2 := (h.2 ⟨["c1"], none⟩ [Twitch.ConnEvent.frame (Twitch.Frame.ready "me")]
    [Twitch.ConnEvent.frame (Twitch.Frame.privmsg "c1" "hi")] none "7" "me" [] []
    (by decide) (by decide) (by intro c t hmem; simp at hmem)).1
  exact h2.trans (by decide)

/-- C3 counterexample: a Privmsg queued while disconnected is consumed by the
drain's `_ => continue 'outer` arm and discarded — after the connection is
established (registration written, ready frame received) it is never
transmitted.  The full output of the run is just `Connecting` plus the
registration write. -/
theorem c3_counterexample_disconnected_privmsg_dropped :
    (Twitch.runOuter ⟨[], none⟩
        [⟨[Twitch.WriteKind.privmsg "chan" "hello"], true,
          [Twitch.ConnEvent.frame (Twitch.Frame.ready "me")]⟩]).1 =
      [Twitch.Output.ev Twitch.Event.connecting, Twitch.Output.wroteRegister] ∧
    Twitch.Output.wrotePrivmsg "chan" "hello" ∉
      (Twitch.runOuter ⟨[], none⟩
        [⟨[Twitch.WriteKind.privmsg "chan" "hello"], true,
          [Twitch.ConnEvent.frame (Twitch.Frame.ready "me")]⟩]).1 := by
  constructor
  · decide
  · decide

/-- C3 amended: Join/Part commands queued while disconnected are applied to
the Active Channel Set without a live socket; a Privmsg queued while
disconnected is discarded by the drain (its `_` arm restarts the outer loop
after the message was already consumed) and a written Privmsg can only
originate from a command received while connected; commands received while
connected are transmitted in FIFO order. -/
theorem c3_disconnected_drain_and_fifo :
    (∀ (A : List String) (t d : String) (ws : List Twitch.WriteKind),
      Twitch.drainWrites A (Twitch.WriteKind.privmsg t d :: ws) =
        Twitch.drainWrites A ws) ∧
    (∀ (A : List String) (c : String) (ws : List Twitch.WriteKind),
      Twitch.drainWrites A (Twitch.WriteKind.join c :: ws) =
        Twitch.drainWrites (Twitch.insertS A c) ws ∧
      Twitch.drainWrites A (Twitch.WriteKind.part c :: ws) =
        Twitch.drainWrites (Twitch.eraseS A c) ws) ∧
    (∀ (s : Twitch.RunState) (its : List Twitch.OuterIter) (t d : String),
      Twitch.Output.wrotePrivmsg t d ∈ (Twitch.runOuter s its).1 →
      ∃ it ∈ its,
        Twitch.ConnEvent.writeCmd (Twitch.WriteKind.privmsg t d) ∈ it.session) ∧
    (∀ (s : Twitch.RunState) (ws : List Twitch.WriteKind),
      (Twitch.runSession s (ws.map Twitch.ConnEvent.writeCmd)).outs =
        ws.map Twitch.writeOut) := by
  refine ⟨?_, ?_, ?_, ?_⟩
  · intro A t d ws; rfl
  · intro A c ws; exact ⟨rfl, rfl⟩
  · intro s its t d h
    exact Twitch.runOuter_wrotePrivmsg_src s its t d h
  · intro s ws
    exact (Twitch.runSession_pure_writes s ws).1

/-- Witness for C3's amended theorem: one connected session carrying a Join,
a Privmsg and a Part transmits them in order, and a transmitted Privmsg is
traced back to its in-session write command. -/
theorem c3_disconnected_drain_and_fifo_witness :
    Twitch.drainWrites [] [Twitch.WriteKind.privmsg "a" "b"] = Twitch.drainWrites [] [] ∧
    (Twitch.runSession ⟨[], none⟩
        ([Twitch.WriteKind.join "c1", Twitch.WriteKind.privmsg "c1" "hi",
          Twitch.WriteKind.part "c1"].map Twitch.ConnEvent.writeCmd)).outs =
      [Twitch.Output.wroteJoin "c1", Twitch.Output.wrotePrivmsg "c1" "hi",
        Twitch.Output.wrotePart "c1"] ∧
    (∃ it ∈ [(⟨[], true,
        [Twitch.ConnEvent.writeCmd (Twitch.WriteKind.privmsg "c1" "hi")]⟩ :
          Twitch.OuterIter)],
      Twitch.ConnEvent.writeCmd (Twitch.WriteKind.privmsg "c1" "hi") ∈ it.session) := by
  have h := c3_disconnected_drain_and_fifo
  refine ⟨h.1 [] "a" "b" [], (h.2.2.2 ⟨[], none⟩ _).trans (by decide), ?_⟩
  exact h.2.2.1 ⟨[], none⟩ _ "c1" "hi" (by decide)

/-- C4: the connection loop never emits `InvalidCredentials` on any input
trace — the dispatch has no arm for an authentication-rejection notice
(`events.rs` does not even declare the variant that `client.rs` line 117
matches on) — and on a session where the server answers registration with an
unrecognized notice and closes the stream, the client emits `Reconnecting`
and keeps attempting to reconnect (a further `Connecting`/`Reconnecting`
follows), contradicting "exactly one InvalidCredentials and no further
reconnection attempts". -/
theorem c4_no_invalid_credentials_ever :
    (∀ (s : Twitch.RunState) (its : List Twitch.OuterIter),
      Twitch.Output.ev Twitch.Event.invalidCredentials ∉ (Twitch.runOuter s its).1) ∧
    (Twitch.runOuter ⟨[], none⟩
        [⟨[], true, [Twitch.ConnEvent.frame Twitch.Frame.other,
          Twitch.ConnEvent.streamClosed]⟩,
         ⟨[], false, []⟩]).1 =
      [Twitch.Output.ev Twitch.Event.connecting, Twitch.Output.wroteRegister,
       Twitch.Output.ev (Twitch.Event.reconnecting Twitch.RECONNECT_MS),
       Twitch.Output.ev Twitch.Event.connecting,
       Twitch.Output.ev (Twitch.Event.reconnecting Twitch.RECONNECT_MS)] := by
  constructor
  · intro s its
    exact Twitch.runOuter_no_invalid s its
  · decide

/-! ## Stream-status subscription batcher (src/runtime/stream_check.rs) -/

namespace SC

/-- `helix::data::Stream`, reduced to the one field `poll_helix` reads. -/
structure Stream where
  userId : String
  deriving Repr, DecidableEq

/-- `Action<String>` / `Action<StreamStatus>` (src/runtime/stream_check.rs). -/
inductive SCAct where
  | added (k : String)
  | removed (k : String)
  deriving Repr, DecidableEq

/-- `StreamCheck::BURST_WINDOW` = 1 s, in milliseconds. -/
def BURST_WINDOW_MS : Nat := 1000

/-- `StreamCheck::STREAM_CHECK_DURATION` = 30 s, in milliseconds. -/
def STREAM_CHECK_MS : Nat := 30000

/-- One action arriving on the `watching` channel, with its arrival time. -/
structure SCIn where
  t : Nat
  act : SCAct
  deriving Repr, DecidableEq

/-- The `poll_helix` loop state: current time, the true watch-set `set`, and
the pending burst `queue`. -/
structure SCState where
  now : Nat
  watchSet : List String
  queue : List String
  deriving Repr, DecidableEq

/-- A batched fetch request (`batch_send!` invocation): when it was issued
and exactly which keys were requested. -/
structure SCFetch where
  t : Nat
  keys : List String
  deriving Repr, DecidableEq

/-- Completion time of `tokio::time::timeout(BURST_WINDOW, recv.recv())`:
the head action's arrival if it comes before the burst deadline, else the
deadline itself. -/
def rightTime (s : SCState) : List SCIn → Nat
  | [] => s.now + BURST_WINDOW_MS
  | i :: _ => min (max s.now i.t) (s.now + BURST_WINDOW_MS)

/-- One iteration of the `poll_helix` loop (src/runtime/stream_check.rs lines
133-177).  Both timers are re-created at the top of every iteration: a fresh
30 s `sleep` races a fresh 1 s-timeout-wrapped `recv`.  `select2` resolves to
whichever side completes first; the sleep side is taken only when it
completes strictly earlier.  `Added` inserts into the watch-set and, when
new, pushes onto the burst queue; `Removed` erases from the watch-set only;
a burst-window timeout with a non-empty queue issues one batched fetch for
exactly the queued keys and clears the queue. -/
def scStep (s : SCState) (inputs : List SCIn) :
    Option SCFetch × SCState × List SCIn :=
  if s.now + STREAM_CHECK_MS < rightTime s inputs then
    (some ⟨s.now + STREAM_CHECK_MS, s.watchSet⟩,
      { s with now := s.now + STREAM_CHECK_MS }, inputs)
  else
    match inputs with
    | i :: rest =>
      if max s.now i.t < s.now + BURST_WINDOW_MS then
        match i.act with
        | .removed k =>
          (none, ⟨max s.now i.t, s.watchSet.erase k, s.queue⟩, rest)
        | .added k =>
          if k ∈ s.watchSet then
            (none, { s with now := max s.now i.t }, rest)
          else
            (none, ⟨max s.now i.t, s.watchSet ++ [k], s.queue ++ [k]⟩, rest)
      else
        if s.queue.isEmpty then
          (none, { s with now := s.now + BURST_WINDOW_MS }, inputs)
        else
          (some ⟨s.now + BURST_WINDOW_MS, s.queue⟩,
            { s with now := s.now + BURST_WINDOW_MS, queue := [] }, inputs)
    | [] =>
      if s.queue.isEmpty then
        (none, { s with now := s.now + BURST_WINDOW_MS }, [])
      else
        (some ⟨s.now + BURST_WINDOW_MS, s.queue⟩,
          { s with now := s.now + BURST_WINDOW_MS, queue := [] }, [])

/-- Run the `poll_helix` loop for `fuel` iterations, collecting every issued
batched fetch. -/
def scRun : Nat → SCState → List SCIn → List SCFetch × SCState
  | 0, s, _ => ([], s)
  | fuel + 1, s, inputs =>
    let r := scStep s inputs
    let rr := scRun fuel r.2.1 r.2.2
    (r.1.elim rr.1 (fun f => f :: rr.1), rr.2)

/-- `batch_send!` diffing (src/runtime/stream_check.rs lines 93-110): every
stream in the response yields an update carrying the stream; every requested
key not covered by the response yields a `None` update.  Updates are the
`(String, Option<Stream>)` pairs sent back to the foreground. -/
def batchSendUpdates (requested : List String) (resp : List Stream) :
    List (String × Option Stream) :=
  (resp.map (fun st => (st.userId, some st))) ++
    ((requested.filter
      (fun k => !(resp.any (fun st => st.userId == k)))).map (fun k => (k, none)))

/-- `ResolverEntry::set` (src/resolver/resolver_entry.rs): upsert a `Ready`
value. -/
def entrySet {K V : Type} [DecidableEq K] :
    List (K × Ready V) → K → V → List (K × Ready V)
  | [], k, v => [(k, Ready.ready v)]
  | (k2, e) :: rest, k, v =>
    if k2 = k then (k2, Ready.ready v) :: rest else (k2, e) :: entrySet rest k v

/-- `StreamCheck::update` (src/runtime/stream_check.rs lines 179-196): a
`None` stream yields a `Removed` event, a present one an `Added` event; the
entry is set either way. -/
def scUpdate (m : List (String × Ready (Option Stream))) (id : String)
    (st : Option Stream) : List (String × Ready (Option Stream)) × SCAct :=
  (entrySet m id st, if st.isNone then SCAct.removed id else SCAct.added id)

/-- The foreground `StreamCheck` as the claims see it: the resolver map plus
the record of actions sent on the `watching` channel. -/
structure StreamCheckFront where
  map : ResolverMap String (Option Stream)
  watchingSent : List SCAct
  deriving Repr, DecidableEq

/-- `StreamCheck::get_or_subscribe` (src/runtime/stream_check.rs lines
71-78): `get_or_else` on the map, whose first-time branch sends
`Action::Added`; the `?.as_ref()` flattens `Option<&Option<Stream>>`. -/
def getOrSubscribe (sc : StreamCheckFront) (userId : String) :
    Option Stream × StreamCheckFront :=
  let r := sc.map.getOrElse userId
  let sent :=
    if r.2.2 then sc.watchingSent ++ [SCAct.added userId] else sc.watchingSent
  (r.1.join, ⟨r.2.1, sent⟩)

/-- `StreamCheck::unsubscribe` (src/runtime/stream_check.rs lines 80-82):
sends `Action::Removed` on the `watching` channel; the map is untouched. -/
def unsubscribe (sc : StreamCheckFront) (userId : String) : StreamCheckFront :=
  ⟨sc.map, sc.watchingSent ++ [SCAct.removed userId]⟩

theorem rightTime_le (s : SCState) (inputs : List SCIn) :
    rightTime s inputs ≤ s.now + BURST_WINDOW_MS := by
  cases inputs with
  | nil => exact Nat.le_refl _
  | cons i rest => exact Nat.min_le_right _ _

/-- The periodic-refresh branch of the race is unreachable: the 30 s sleep,
re-created every iteration, always completes after the 1 s-timeout future. -/
theorem scStep_periodic_unreachable (s : SCState) (inputs : List SCIn) :
    ¬ s.now + STREAM_CHECK_MS < rightTime s inputs := by
  have h := rightTime_le s inputs
  simp only [BURST_WINDOW_MS, STREAM_CHECK_MS] at h ⊢
  omega

/-- An idle iteration: empty queue and the next action not inside the current
burst window — the 1 s timeout fires, nothing is flushed, time advances by
one burst window, the inputs are untouched. -/
theorem scStep_idle (T : Nat) (set : List String) (i : SCIn) (rest : List SCIn)
    (hfar : ¬ max T i.t < T + BURST_WINDOW_MS) :
    scStep ⟨T, set, []⟩ (i :: rest) =
      (none, ⟨T + BURST_WINDOW_MS, set, []⟩, i :: rest) := by
  simp [scStep, scStep_periodic_unreachable ⟨T, set, []⟩ (i :: rest), hfar]

/-- Burst-window timeout with pending inputs beyond the window and a
non-empty queue: flush the queue, keep the inputs. -/
theorem scStep_flush_cons (T : Nat) (set q : List String) (i : SCIn)
    (rest : List SCIn) (hfar : ¬ max T i.t < T + BURST_WINDOW_MS)
    (hq : q ≠ []) :
    scStep ⟨T, set, q⟩ (i :: rest) =
      (some ⟨T + BURST_WINDOW_MS, q⟩, ⟨T + BURST_WINDOW_MS, set, []⟩,
        i :: rest) := by
  simp [scStep, scStep_periodic_unreachable ⟨T, set, q⟩ (i :: rest), hfar, hq]

/-- Receiving an `Added` action for a key already in the watch-set: nothing
but the clock changes (`set.insert` returned false, nothing is queued). -/
theorem scStep_recv_added_old (T t : Nat) (set q : List String) (a : String)
    (rest : List SCIn) (hrecv : max T t < T + BURST_WINDOW_MS)
    (hold : a ∈ set) :
    scStep ⟨T, set, q⟩ (⟨t, SCAct.added a⟩ :: rest) =
      (none, ⟨max T t, set, q⟩, rest) := by
  simp [scStep,
    scStep_periodic_unreachable ⟨T, set, q⟩ (⟨t, SCAct.added a⟩ :: rest),
    hrecv, hold]

/-- Timeout with no inputs at all and an empty queue: pure idling. -/
theorem scStep_idle_empty (T : Nat) (set : List String) :
    scStep ⟨T, set, []⟩ [] = (none, ⟨T + BURST_WINDOW_MS, set, []⟩, []) := by
  simp [scStep, scStep_periodic_unreachable ⟨T, set, []⟩ []]

/-- Receiving a fresh `Added` action: inserted into the watch-set and pushed
onto the burst queue, time advances to the arrival. -/
theorem scStep_recv_added_new (T t : Nat) (set q : List String) (a : String)
    (rest : List SCIn) (hrecv : max T t < T + BURST_WINDOW_MS)
    (hnew : a ∉ set) :
    scStep ⟨T, set, q⟩ (⟨t, SCAct.added a⟩ :: rest) =
      (none, ⟨max T t, set ++ [a], q ++ [a]⟩, rest) := by
  simp [scStep,
    scStep_periodic_unreachable ⟨T, set, q⟩ (⟨t, SCAct.added a⟩ :: rest),
    hrecv, hnew]

/-- Receiving a `Removed` action: erased from the watch-set only; the queue
is untouched and nothing is sent back. -/
theorem scStep_recv_removed (T t : Nat) (set q : List String) (k : String)
    (rest : List SCIn) (hrecv : max T t < T + BURST_WINDOW_MS) :
    scStep ⟨T, set, q⟩ (⟨t, SCAct.removed k⟩ :: rest) =
      (none, ⟨max T t, set.erase k, q⟩, rest) := by
  simp [scStep,
    scStep_periodic_unreachable ⟨T, set, q⟩ (⟨t, SCAct.removed k⟩ :: rest),
    hrecv]

/-- Burst-window timeout with no further inputs and a non-empty queue: one
batched fetch for exactly the queued keys, then the queue is cleared. -/
theorem scStep_flush (T : Nat) (set q : List String) (hq : q ≠ []) :
    scStep ⟨T, set, q⟩ [] =
      (some ⟨T + BURST_WINDOW_MS, q⟩, ⟨T + BURST_WINDOW_MS, set, []⟩, []) := by
  simp [scStep, scStep_periodic_unreachable ⟨T, set, q⟩ [], hq]

/-- With no incoming actions and an empty queue the loop only idles: no fetch
is ever issued, however long it runs — in particular the 30 s periodic
refresh never occurs, because the freshly re-created sleep always loses the
race. -/
theorem scRun_empty_idle (fuel : Nat) : ∀ (n : Nat) (set : List String),
    scRun fuel ⟨n, set, []⟩ [] =
      ([], ⟨n + BURST_WINDOW_MS * fuel, set, []⟩) := by
  induction fuel with
  | zero => intro n set; simp [scRun]
  | succ m ih =>
    intro n set
    simp only [scRun, scStep_idle_empty, ih]
    refine congrArg (Prod.mk []) ?_
    have : n + BURST_WINDOW_MS + BURST_WINDOW_MS * m =
        n + BURST_WINDOW_MS * (m + 1) := by ring
    rw [this]

/-- Fast-forward through `k` idle windows towards the first arrival. -/
theorem scRun_idle_fwd (k : Nat) : ∀ (fuel T r : Nat) (set : List String)
    (i : SCIn) (rest : List SCIn),
    i.t = T + BURST_WINDOW_MS * k + r → r < BURST_WINDOW_MS →
    scRun (fuel + k) ⟨T, set, []⟩ (i :: rest) =
      scRun fuel ⟨T + BURST_WINDOW_MS * k, set, []⟩ (i :: rest) := by
  induction k with
  | zero => intro fuel T r set i rest _ _; rfl
  | succ m ih =>
    intro fuel T r set i rest ht hr
    have hstep := scStep_idle T set i rest (by
      simp only [BURST_WINDOW_MS] at ht ⊢
      omega)
    have hfuel : fuel + (m + 1) = (fuel + m) + 1 := by omega
    rw [hfuel]
    simp only [scRun, hstep]
    rw [ih fuel (T + BURST_WINDOW_MS) r set i rest (by
      simp only [BURST_WINDOW_MS] at ht ⊢
      omega) hr]
    have harith : T + BURST_WINDOW_MS + BURST_WINDOW_MS * m =
        T + BURST_WINDOW_MS * (m + 1) := by ring
    rw [harith]
    rfl

/-- A key that is watched by nobody, queued nowhere and never re-added stays
out of every issued batch and out of the loop state. -/
theorem scStep_absent (s : SCState) (inputs : List SCIn) (x : String)
    (hset : x ∉ s.watchSet) (hq : x ∉ s.queue)
    (hin : ∀ i ∈ inputs, i.act ≠ SCAct.added x) :
    (∀ f, (scStep s inputs).1 = some f → x ∉ f.keys) ∧
    x ∉ (scStep s inputs).2.1.watchSet ∧
    x ∉ (scStep s inputs).2.1.queue ∧
    (∀ i ∈ (scStep s inputs).2.2, i.act ≠ SCAct.added x) := by
  obtain ⟨T, set, q⟩ := s
  simp only at hset hq
  cases inputs with
  | nil =>
    rcases q with _ | ⟨qh, qt⟩
    · rw [scStep_idle_empty]
      simp [hset]
    · rw [scStep_flush T set (qh :: qt) (by simp)]
      refine ⟨?_, hset, by simp, by simp⟩
      intro f hf
      have hfe : f = ⟨T + BURST_WINDOW_MS, qh :: qt⟩ := (Option.some.inj hf).symm
      rw [hfe]
      exact hq
  | cons i rest =>
    obtain ⟨t, act⟩ := i
    have hhead : SCAct.added x ≠ act := fun hh => hin ⟨t, act⟩ (by simp) hh.symm
    have hrest : ∀ j ∈ rest, j.act ≠ SCAct.added x :=
      fun j hj => hin j (by simp [hj])
    by_cases hrecv : max T t < T + BURST_WINDOW_MS
    · rcases act with k | k
      · have hkx : k ≠ x := fun hh => hhead (by rw [hh])
        by_cases hk : k ∈ set
        · rw [scStep_recv_added_old T t set q k rest hrecv hk]
          simp only
          exact ⟨by simp, hset, hq, hrest⟩
        · rw [scStep_recv_added_new T t set q k rest hrecv hk]
          simp only [List.mem_append, List.mem_singleton]
          refine ⟨by simp, ?_, ?_, hrest⟩
          · rintro (hh | hh)
            · exact hset hh
            · exact hkx hh.symm
          · rintro (hh | hh)
            · exact hq hh
            · exact hkx hh.symm
      · rw [scStep_recv_removed T t set q k rest hrecv]
        refine ⟨by simp, ?_, hq, hrest⟩
        exact fun hmem => hset (List.mem_of_mem_erase hmem)
    · rcases q with _ | ⟨qh, qt⟩
      · rw [scStep_idle T set ⟨t, act⟩ rest hrecv]
        exact ⟨by simp, hset, by simp, hin⟩
      · rw [scStep_flush_cons T set (qh :: qt) ⟨t, act⟩ rest hrecv (by simp)]
        refine ⟨?_, hset, by simp, hin⟩
        intro f hf
        have hfe : f = ⟨T + BURST_WINDOW_MS, qh :: qt⟩ := (Option.some.inj hf).symm
        rw [hfe]
        exact hq

theorem scRun_absent (fuel : Nat) : ∀ (s : SCState) (inputs : List SCIn)
    (x : String), x ∉ s.watchSet → x ∉ s.queue →
    (∀ i ∈ inputs, i.act ≠ SCAct.added x) →
    (∀ f ∈ (scRun fuel s inputs).1, x ∉ f.keys) ∧
    x ∉ (scRun fuel s inputs).2.watchSet ∧
    x ∉ (scRun fuel s inputs).2.queue := by
  induction fuel with
  | zero => intro s inputs x hset hq _; simpa [scRun] using ⟨hset, hq⟩
  | succ m ih =>
    intro s inputs x hset hq hin
    obtain ⟨hf, hset2, hq2, hin2⟩ := scStep_absent s inputs x hset hq hin
    have ihp := ih (scStep s inputs).2.1 (scStep s inputs).2.2 x hset2 hq2 hin2
    rcases hstep : (scStep s inputs).1 with _ | f
    · simp only [scRun, hstep, Option.elim]
      exact ihp
    · simp only [scRun, hstep, Option.elim]
      refine ⟨?_, ihp.2.1, ihp.2.2⟩
      intro g hg
      rcases List.mem_cons.mp hg with hg | hg
      · subst hg; exact hf g hstep
      · exact ihp.1 g hg

end SC

/-- C5: subscribing two distinct keys within one burst window (1 s) of each
other, starting from an empty watch-set, yields exactly one batched fetch
request containing exactly both keys, issued one burst window after the
second subscribe — hence at least 1 s and less than 2 s after the first
subscribe — after which the pending batch is cleared (and both keys are in
the watch-set).  The run may continue arbitrarily long (`m` further
iterations) without issuing anything else. -/
theorem c5_burst_coalesced_single_fetch
    (T t0 t1 k r m : Nat) (a b : String)
    (ht0 : t0 = T + SC.BURST_WINDOW_MS * k + r) (hr : r < SC.BURST_WINDOW_MS)
    (h01 : t0 ≤ t1) (hb : t1 < t0 + SC.BURST_WINDOW_MS) (hab : a ≠ b) :
    (SC.scRun (3 + m + k) ⟨T, [], []⟩
        [⟨t0, SC.SCAct.added a⟩, ⟨t1, SC.SCAct.added b⟩]).1 =
      [⟨t1 + SC.BURST_WINDOW_MS, [a, b]⟩] ∧
    (SC.scRun (3 + m + k) ⟨T, [], []⟩
        [⟨t0, SC.SCAct.added a⟩, ⟨t1, SC.SCAct.added b⟩]).2.queue = [] ∧
    (SC.scRun (3 + m + k) ⟨T, [], []⟩
        [⟨t0, SC.SCAct.added a⟩, ⟨t1, SC.SCAct.added b⟩]).2.watchSet = [a, b] ∧
    t0 + SC.BURST_WINDOW_MS ≤ t1 + SC.BURST_WINDOW_MS ∧
    t1 + SC.BURST_WINDOW_MS < t0 + 2 * SC.BURST_WINDOW_MS := by
  have hT : T + SC.BURST_WINDOW_MS * k ≤ t0 := by omega
  have ht0lt : t0 < T + SC.BURST_WINDOW_MS * k + SC.BURST_WINDOW_MS := by omega
  rw [SC.scRun_idle_fwd k (3 + m) T r [] ⟨t0, SC.SCAct.added a⟩
    [⟨t1, SC.SCAct.added b⟩] ht0 hr]
  have h1 : SC.scStep ⟨T + SC.BURST_WINDOW_MS * k, [], []⟩
      (⟨t0, SC.SCAct.added a⟩ :: [⟨t1, SC.SCAct.added b⟩]) =
      (none, ⟨t0, [a], [a]⟩, [⟨t1, SC.SCAct.added b⟩]) := by
    rw [SC.scStep_recv_added_new (T + SC.BURST_WINDOW_MS * k) t0 [] [] a
      [⟨t1, SC.SCAct.added b⟩] (by omega) (by simp)]
    simp [Nat.max_eq_right hT]
  have h2 : SC.scStep ⟨t0, [a], [a]⟩ [⟨t1, SC.SCAct.added b⟩] =
      (none, ⟨t1, [a, b], [a, b]⟩, []) := by
    rw [SC.scStep_recv_added_new t0 t1 [a] [a] b [] (by omega)
      (by simpa using Ne.symm hab)]
    simp [Nat.max_eq_right h01]
  have h3 : SC.scStep ⟨t1, [a, b], [a, b]⟩ [] =
      (some ⟨t1 + SC.BURST_WINDOW_MS, [a, b]⟩,
        ⟨t1 + SC.BURST_WINDOW_MS, [a, b], []⟩, []) :=
    SC.scStep_flush t1 [a, b] [a, b] (by simp)
  have hf3 : 3 + m = m + 1 + 1 + 1 := by omega
  rw [hf3]
  simp only [SC.scRun, h1, h2, h3, Option.elim, SC.scRun_empty_idle m]
  refine ⟨trivial, trivial, trivial, by omega, by omega⟩

/-- Witness for C5: `"alice"` at time 0, `"bob"` at time 500 ms, loop started
at time 0: one fetch for both at 1500 ms, queue cleared. -/
theorem c5_burst_coalesced_single_fetch_witness :
    ((SC.scRun (3 + 2 + 0) ⟨0, [], []⟩
        [⟨0, SC.SCAct.added "alice"⟩, ⟨500, SC.SCAct.added "bob"⟩]).1 =
      [⟨500 + SC.BURST_WINDOW_MS, ["alice", "bob"]⟩] ∧
    (SC.scRun (3 + 2 + 0) ⟨0, [], []⟩
        [⟨0, SC.SCAct.added "alice"⟩, ⟨500, SC.SCAct.added "bob"⟩]).2.queue = [] ∧
    (SC.scRun (3 + 2 + 0) ⟨0, [], []⟩
        [⟨0, SC.SCAct.added "alice"⟩, ⟨500, SC.SCAct.added "bob"⟩]).2.watchSet =
      ["alice", "bob"] ∧
    0 + SC.BURST_WINDOW_MS ≤ 500 + SC.BURST_WINDOW_MS ∧
    500 + SC.BURST_WINDOW_MS < 0 + 2 * SC.BURST_WINDOW_MS) :=
  c5_burst_coalesced_single_fetch 0 0 500 0 0 2 "alice" "bob"
    (by decide) (by decide) (by decide) (by decide) (by decide)

/-- C6: the 30 s periodic refresh never happens — with a non-empty watch-set
and no incoming subscribe/unsubscribe actions the loop issues no batched
fetch at all, however long it runs, because both timers are re-created every
iteration and the freshly armed 30 s sleep always loses the race to the 1 s
burst-window timeout.  The second half of the claim does hold: a key that was
requested in a batch but is absent from the response yields a `(key, None)`
update, which `StreamCheck::update` turns into a `Removed` event. -/
theorem c6_periodic_refresh_dead_but_absent_removed :
    (∀ (fuel t0 : Nat) (set : List String),
      (SC.scRun fuel ⟨t0, set, []⟩ []).1 = []) ∧
    (∀ (requested : List String) (resp : List SC.Stream) (k : String)
      (m : List (String × Ready (Option SC.Stream))),
      k ∈ requested → (∀ st ∈ resp, st.userId ≠ k) →
      (k, (none : Option SC.Stream)) ∈ SC.batchSendUpdates requested resp ∧
      (SC.scUpdate m k none).2 = SC.SCAct.removed k) := by
  constructor
  · intro fuel t0 set
    rw [SC.scRun_empty_idle fuel t0 set]
  · intro requested resp k m hk habs
    constructor
    · unfold SC.batchSendUpdates
      refine List.mem_append_right _ ?_
      refine List.mem_map.mpr ⟨k, ?_, rfl⟩
      refine List.mem_filter.mpr ⟨hk, ?_⟩
      simp only [Bool.not_eq_eq_eq_not, Bool.not_true, List.any_eq_false]
      intro st hst
      simpa using habs st hst
    · rfl

/-- Witness for C6: requesting `"alice"` and getting an empty response puts
`("alice", none)` among the updates, and updating with `none` emits
`Removed "alice"`. -/
theorem c6_periodic_refresh_dead_but_absent_removed_witness :
    (("alice", (none : Option SC.Stream)) ∈
      SC.batchSendUpdates ["alice"] [] ∧
    (SC.scUpdate [] "alice" none).2 = SC.SCAct.removed "alice") :=
  c6_periodic_refresh_dead_but_absent_removed.2 ["alice"] [] "alice" []
    (by decide) (by intro st hst; simp at hst)

/-- C10: for a key whose cache entry is `Ready`, `unsubscribe` only sends a
`Removed` action and leaves the map untouched; a later `get_or_subscribe`
returns the cached (stale) value and sends nothing; the background loop
processes the `Removed` action by erasing the key from the watch-set (queue
untouched, nothing sent back); and once the key is out of the watch-set and
queue and no `Added` for it ever arrives again, no later batched fetch
contains it — the key is never refreshed yet still reads as its last known
status. -/
theorem c10_unsubscribed_key_stays_stale (sc : SC.StreamCheckFront)
    (k : String) (v : Option SC.Stream) :
    (SC.unsubscribe sc k).map = sc.map ∧
    (SC.unsubscribe sc k).watchingSent =
      sc.watchingSent ++ [SC.SCAct.removed k] ∧
    (lookupEntry sc.map.map k = some (Ready.ready v) →
      SC.getOrSubscribe sc k = (v, sc)) ∧
    (∀ (T t : Nat) (set q : List String) (rest : List SC.SCIn),
      max T t < T + SC.BURST_WINDOW_MS →
      SC.scStep ⟨T, set, q⟩ (⟨t, SC.SCAct.removed k⟩ :: rest) =
        (none, ⟨max T t, set.erase k, q⟩, rest)) ∧
    (∀ (fuel : Nat) (s : SC.SCState) (inputs : List SC.SCIn),
      k ∉ s.watchSet → k ∉ s.queue →
      (∀ i ∈ inputs, i.act ≠ SC.SCAct.added k) →
      (∀ f ∈ (SC.scRun fuel s inputs).1, k ∉ f.keys) ∧
      k ∉ (SC.scRun fuel s inputs).2.watchSet ∧
      k ∉ (SC.scRun fuel s inputs).2.queue) := by
  refine ⟨rfl, rfl, ?_, ?_, ?_⟩
  · intro hready
    unfold SC.getOrSubscribe ResolverMap.getOrElse
    rw [hready]
    rfl
  · intro T t set q rest hrecv
    exact SC.scStep_recv_removed T t set q k rest hrecv
  · intro fuel s inputs hset hq hin
    exact SC.scRun_absent fuel s inputs k hset hq hin

/-- Witness for C10 at a concrete state: `"alice"` cached as a known stream;
unsubscribe leaves the entry; `get_or_subscribe` returns the stale value and
sends nothing; the background loop erases `"alice"` and never fetches it
again. -/
theorem c10_unsubscribed_key_stays_stale_witness :
    (SC.unsubscribe
        ⟨⟨[("alice", Ready.ready (some ⟨"alice"⟩))], []⟩, []⟩ "alice").map =
      ⟨[("alice", Ready.ready (some ⟨"alice"⟩))], []⟩ ∧
    SC.getOrSubscribe
        ⟨⟨[("alice", Ready.ready (some ⟨"alice"⟩))], []⟩, []⟩ "alice" =
      (some ⟨"alice"⟩,
        ⟨⟨[("alice", Ready.ready (some ⟨"alice"⟩))], []⟩, []⟩) ∧
    SC.scStep ⟨0, ["alice"], []⟩ [⟨0, SC.SCAct.removed "alice"⟩] =
      (none, ⟨0, [], []⟩, []) ∧
    (∀ f ∈ (SC.scRun 40 ⟨0, [], []⟩ []).1, "alice" ∉ f.keys) := by
  have h := c10_unsubscribed_key_stays_stale
    ⟨⟨[("alice", Ready.ready (some ⟨"alice"⟩))], []⟩, []⟩ "alice"
    (some ⟨"alice"⟩)
  refine ⟨h.1, h.2.2.1 (by decide), ?_, ?_⟩
  · have h4 := h.2.2.2.1 0 0 ["alice"] [] [] (by decide)
    exact h4.trans (by decide)
  · exact (h.2.2.2.2 40 ⟨0, [], []⟩ [] (by decide) (by decide)
      (by intro i hi; simp at hi)).1

end Vohiyo
